import Mathlib

/-!
# Verification of the `temporarilySet` test utility

A shallow embedding of `src/testUtils.js` from the `react-bdd-testing`
repository, together with the jest lifecycle semantics it relies on
(`beforeAll` / `afterAll` registration during the collection phase,
followed by an execution phase that runs enter hooks, the dependent
operations, and exit hooks — the exit hooks unconditionally).

The source of the utility is:

```
const temporarilySet = (object, propertyName, temporaryValue) => {
    const originalValue = object[propertyName];
    beforeAll(() => { object[propertyName] = temporaryValue; });
    afterAll(() => { object[propertyName] = originalValue; });
};
const testUtils = { temporarilySet };
export default testUtils;
```
-/

/-- A JavaScript value, as far as this repository's code distinguishes them:
`undefined`, booleans, numbers, strings, and opaque function values
(identified by a tag, e.g. a `jest.fn()` mock). -/
inductive JSVal where
  | undef : JSVal
  | bool : Bool → JSVal
  | num : Int → JSVal
  | str : String → JSVal
  | fn : Nat → JSVal
  deriving DecidableEq, Repr

/-- A plain JavaScript object: its own properties, as an association list
from property names to values (insertion order preserved, no prototype
chain — the objects in this repository are object literals). -/
def JSObject : Type := List (String × JSVal)

instance : DecidableEq JSObject := by
  unfold JSObject
  infer_instance

/-- Property read `obj[p]`: the value stored under `p`, or `undefined`
when no such own property exists (JavaScript member-read semantics). -/
def getProp (obj : JSObject) (p : String) : JSVal :=
  match obj with
  | [] => JSVal.undef
  | (k, v) :: rest => if k = p then v else getProp rest p

/-- Property write `obj[p] = v`: overwrites the existing property in
place, or appends a new one.  In JavaScript, assignment always makes the
property present — even when the assigned value is `undefined`. -/
def setProp (obj : JSObject) (p : String) (v : JSVal) : JSObject :=
  match obj with
  | [] => [(p, v)]
  | (k, w) :: rest => if k = p then (k, v) :: rest else (k, w) :: setProp rest p v

/-- Property presence `p in obj`: whether `p` is an own property of
`obj`.  Distinct from `getProp obj p ≠ undef`: a property can be present
with value `undefined`. -/
def hasProp (obj : JSObject) (p : String) : Bool :=
  match obj with
  | [] => false
  | (k, _) :: rest => k = p || hasProp rest p

/-- A JavaScript value counts as defined when it is not `undefined`. -/
def JSVal.isDefined : JSVal → Bool
  | JSVal.undef => false
  | _ => true

/-- The mutable store: objects are reached through references (modelled
as natural-number identities), and property mutation through one
reference is visible through every alias. -/
def Heap : Type := Nat → JSObject

/-- Read `h[o][p]`. -/
def getHeapProp (h : Heap) (o : Nat) (p : String) : JSVal :=
  getProp (h o) p

/-- Write `h[o][p] = v`, leaving every other object untouched. -/
def setHeapProp (h : Heap) (o : Nat) (p : String) (v : JSVal) : Heap :=
  fun n => if n = o then setProp (h n) p v else h n

/-- Presence `p in h[o]`. -/
def hasHeapProp (h : Heap) (o : Nat) (p : String) : Bool :=
  hasProp (h o) p

/-- The registration state of one jest `describe` scope during the
collection phase: the shared heap, plus the `beforeAll` (scope-enter) and
`afterAll` (scope-exit) callbacks registered so far, in registration
order. -/
structure TestEnv where
  heap : Heap
  beforeAllHooks : List (Heap → Heap)
  afterAllHooks : List (Heap → Heap)

/-- jest's `beforeAll`: append a scope-enter callback. -/
def beforeAll (cb : Heap → Heap) (env : TestEnv) : TestEnv :=
  { env with beforeAllHooks := env.beforeAllHooks ++ [cb] }

/-- jest's `afterAll`: append a scope-exit callback. -/
def afterAll (cb : Heap → Heap) (env : TestEnv) : TestEnv :=
  { env with afterAllHooks := env.afterAllHooks ++ [cb] }

/-- `temporarilySet` from `src/testUtils.js`, translated line by line.
It reads `object[propertyName]` into `originalValue` at invocation time,
registers a `beforeAll` callback writing `temporaryValue` and an
`afterAll` callback writing `originalValue` back, and — being an arrow
function whose block body has no `return` — returns `undefined` to its
caller. -/
def temporarilySet (object : Nat) (propertyName : String) (temporaryValue : JSVal)
    (env : TestEnv) : TestEnv × JSVal :=
  let originalValue := getHeapProp env.heap object propertyName
  let env := beforeAll (fun h => setHeapProp h object propertyName temporaryValue) env
  let env := afterAll (fun h => setHeapProp h object propertyName originalValue) env
  (env, JSVal.undef)

/-- A fresh `describe` scope whose body consists of one `temporarilySet`
call: its registration state after the collection phase has run that
body on heap `h`. -/
def registerScope (o : Nat) (p : String) (v : JSVal) (h : Heap) : TestEnv :=
  (temporarilySet o p v { heap := h, beforeAllHooks := [], afterAllHooks := [] }).1

/-- Run a list of lifecycle callbacks in order. -/
def runHooks (hooks : List (Heap → Heap)) (h : Heap) : Heap :=
  hooks.foldl (fun s f => f s) h

/-- Outcome of a scope's dependent operations (test bodies). -/
inductive Outcome where
  | passed : Outcome
  | failed : Outcome
  deriving DecidableEq, Repr

/-- Execution phase of one scope under jest semantics: run the
`beforeAll` hooks, then the dependent operations (which may mutate the
heap and pass or fail), then the `afterAll` hooks — unconditionally,
whatever the outcome of the body was. -/
def runScopeWith (env : TestEnv) (body : Heap → Heap × Outcome) : Heap × Outcome :=
  let h1 := runHooks env.beforeAllHooks env.heap
  let r := body h1
  (runHooks env.afterAllHooks r.1, r.2)

/-- Execution phase of one scope started on an explicit heap `h` (the
heap current when the scope's turn to execute arrives — for the first
scope after collection this is the collection-phase heap, for a later
sibling it is whatever the earlier sibling left behind). -/
def runScopeOn (env : TestEnv) (body : Heap → Heap) (h : Heap) : Heap :=
  runHooks env.afterAllHooks (body (runHooks env.beforeAllHooks h))

/-- Execution phase of one scope, outcome suppressed, started on the
collection-phase heap. -/
def runScope (env : TestEnv) (body : Heap → Heap) : Heap :=
  runScopeOn env body env.heap

/-- jest execution of an outer scope containing a nested inner scope, up
to the observation point right after the inner scope's exit hooks and
before the outer scope's exit hooks: outer enter hooks run first, then
the inner enter hooks, then the inner dependent operations, then the
inner exit hooks.  Both scopes' registration already happened during the
collection phase, before any of these hooks ran. -/
def nestedAfterInnerExit (envO envI : TestEnv) (innerBody : Heap → Heap) : Heap :=
  runHooks envI.afterAllHooks
    (innerBody (runHooks envI.beforeAllHooks (runHooks envO.beforeAllHooks envO.heap)))

/-- The same nested execution carried through the outer scope's exit
hooks. -/
def runNested (envO envI : TestEnv) (innerBody : Heap → Heap) : Heap :=
  runHooks envO.afterAllHooks (nestedAfterInnerExit envO envI innerBody)

/-- A heap whose every object is empty (no own properties anywhere). -/
def emptyHeap : Heap :=
  fun _ => []

/-- A concrete heap for witnesses: object `0` is
`{ disabled: false, label: "My Button" }`, every other object is empty. -/
def exampleHeap : Heap :=
  fun n =>
    if n = 0 then [("disabled", JSVal.bool false), ("label", JSVal.str "My Button")]
    else []

/-- A concrete heap for the nesting scenario: object `0` is `{ p: 0 }`. -/
def nestedExampleHeap : Heap :=
  fun n => if n = 0 then [("p", JSVal.num 0)] else []

/-- A concrete heap where object `0` has property `"x"` present but with
value `undefined` — observationally identical to an absent `"x"` under
property reads, but distinguishable by presence. -/
def presentUndefHeap : Heap :=
  fun n => if n = 0 then [("x", JSVal.undef)] else []

/-- A value a module can export: an opaque function value (named for
readability) or an object literal value, described by its field names. -/
inductive ExportVal where
  | fnVal : String → ExportVal
  | objVal : List String → ExportVal
  deriving DecidableEq, Repr

/-- The export surface of `src/testUtils.js`: the module body defines
`temporarilySet` and `testUtils = { temporarilySet }`, and its only
export declaration is `export default testUtils`.  Hence the module
exports exactly one name, `"default"`, bound to the `testUtils` object
whose single field is `temporarilySet`. -/
def testUtilsModuleExports : List (String × ExportVal) :=
  [("default", ExportVal.objVal ["temporarilySet"])]

/-- Named-import resolution: a named import of `x` from module `m` looks
`x` up among `m`'s export names; `none` means no export of that name exists
(under the CommonJS interop the repository's toolchain uses, such a
binding surfaces as `undefined` at the call site instead of failing at
link time). -/
def resolveExport (exports : List (String × ExportVal)) (name : String) : Option ExportVal :=
  match exports with
  | [] => none
  | (k, v) :: rest => if k = name then some v else resolveExport rest name

/-! ## Basic lemmas about property access -/

theorem getProp_setProp_same (obj : JSObject) (p : String) (v : JSVal) :
    getProp (setProp obj p v) p = v := by
  induction obj with
  | nil => simp [getProp, setProp]
  | cons kv rest ih =>
    obtain ⟨k, w⟩ := kv
    by_cases hk : k = p
    · simp [getProp, setProp, hk]
    · simp [getProp, setProp, hk, ih]

theorem getProp_setProp_other (obj : JSObject) (p q : String) (v : JSVal)
    (hpq : q ≠ p) : getProp (setProp obj p v) q = getProp obj q := by
  have hqp : p ≠ q := Ne.symm hpq
  induction obj with
  | nil => simp [getProp, setProp, hqp]
  | cons kv rest ih =>
    obtain ⟨k, w⟩ := kv
    by_cases hk : k = p
    · subst hk
      simp [getProp, setProp, hqp]
    · by_cases hq : k = q
      · subst hq
        simp [getProp, setProp, hk, hpq]
      · simp [getProp, setProp, hk, hq, ih]

theorem hasProp_setProp_same (obj : JSObject) (p : String) (v : JSVal) :
    hasProp (setProp obj p v) p = true := by
  induction obj with
  | nil => simp [hasProp, setProp]
  | cons kv rest ih =>
    obtain ⟨k, w⟩ := kv
    by_cases hk : k = p
    · simp [hasProp, setProp, hk]
    · simp [hasProp, setProp, hk, ih]

theorem hasProp_setProp_other (obj : JSObject) (p q : String) (v : JSVal)
    (hpq : q ≠ p) : hasProp (setProp obj p v) q = hasProp obj q := by
  have hqp : p ≠ q := Ne.symm hpq
  induction obj with
  | nil => simp [hasProp, setProp, hqp]
  | cons kv rest ih =>
    obtain ⟨k, w⟩ := kv
    by_cases hk : k = p
    · subst hk
      simp [hasProp, setProp, hqp]
    · simp [hasProp, setProp, hk, ih]

theorem getProp_eq_undef_of_not_hasProp (obj : JSObject) (p : String)
    (h : hasProp obj p = false) : getProp obj p = JSVal.undef := by
  induction obj with
  | nil => simp [getProp]
  | cons kv rest ih =>
    obtain ⟨k, w⟩ := kv
    simp [hasProp] at h
    simp [getProp, h.1, ih h.2]

theorem setProp_setProp_same (obj : JSObject) (p : String) (v : JSVal) :
    setProp (setProp obj p v) p v = setProp obj p v := by
  induction obj with
  | nil => simp [setProp]
  | cons kv rest ih =>
    obtain ⟨k, w⟩ := kv
    by_cases hk : k = p
    · simp [setProp, hk]
    · simp [setProp, hk, ih]

/-! ## Heap-level lemmas -/

theorem getHeapProp_setHeapProp_same (h : Heap) (o : Nat) (p : String) (v : JSVal) :
    getHeapProp (setHeapProp h o p v) o p = v := by
  simp [getHeapProp, setHeapProp, getProp_setProp_same]

theorem getHeapProp_setHeapProp_other (h : Heap) (o o' : Nat) (p p' : String)
    (v : JSVal) (hne : o' ≠ o ∨ p' ≠ p) :
    getHeapProp (setHeapProp h o p v) o' p' = getHeapProp h o' p' := by
  rcases hne with ho | hp
  · simp [getHeapProp, setHeapProp, ho]
  · by_cases ho : o' = o
    · simp [getHeapProp, setHeapProp, ho, getProp_setProp_other _ _ _ _ hp]
    · simp [getHeapProp, setHeapProp, ho]

theorem hasHeapProp_setHeapProp_other (h : Heap) (o o' : Nat) (p p' : String)
    (v : JSVal) (hne : o' ≠ o ∨ p' ≠ p) :
    hasHeapProp (setHeapProp h o p v) o' p' = hasHeapProp h o' p' := by
  rcases hne with ho | hp
  · simp [hasHeapProp, setHeapProp, ho]
  · by_cases ho : o' = o
    · simp [hasHeapProp, setHeapProp, ho, hasProp_setProp_other _ _ _ _ hp]
    · simp [hasHeapProp, setHeapProp, ho]

/-! ## Structural lemmas about registration and hook running -/

theorem registerScope_heap (o : Nat) (p : String) (v : JSVal) (h : Heap) :
    (registerScope o p v h).heap = h := rfl

theorem registerScope_beforeAllHooks (o : Nat) (p : String) (v : JSVal) (h : Heap) :
    (registerScope o p v h).beforeAllHooks = [fun s => setHeapProp s o p v] := rfl

theorem registerScope_afterAllHooks (o : Nat) (p : String) (v : JSVal) (h : Heap) :
    (registerScope o p v h).afterAllHooks
      = [fun s => setHeapProp s o p (getHeapProp h o p)] := rfl

theorem runHooks_singleton (f : Heap → Heap) (h : Heap) : runHooks [f] h = f h := rfl

theorem setHeapProp_idem (h : Heap) (o : Nat) (p : String) (v : JSVal) :
    setHeapProp (setHeapProp h o p v) o p v = setHeapProp h o p v := by
  funext n
  by_cases hn : n = o
  · simp [setHeapProp, hn, setProp_setProp_same]
  · simp [setHeapProp, hn]

theorem hasHeapProp_setHeapProp_same (h : Heap) (o : Nat) (p : String) (v : JSVal) :
    hasHeapProp (setHeapProp h o p v) o p = true := by
  simp [hasHeapProp, setHeapProp, hasProp_setProp_same]

theorem iterate_fixed_of_idem (f : Heap → Heap) (hf : ∀ x, f (f x) = f x)
    (n : Nat) (x : Heap) : Nat.iterate f (n + 1) x = f x := by
  induction n generalizing x with
  | zero => rfl
  | succ m ih =>
      have hstep : Nat.iterate f (m + 2) x = Nat.iterate f (m + 1) (f x) :=
        Function.iterate_succ_apply f (m + 1) x
      rw [hstep, ih (f x), hf x]

/-! ## Claim theorems -/

/-- C1: after a scope using `temporarilySet(O, P, V)` completes —
whatever the dependent operations did to the heap and whether they
passed or failed (the host runs `afterAll` hooks unconditionally) —
`O[P]` reads back exactly the value it had immediately before
`temporarilySet` was invoked. -/
theorem temporarilySet_restores_after_scope (o : Nat) (p : String) (v : JSVal)
    (h : Heap) (body : Heap → Heap × Outcome) :
    getHeapProp (runScopeWith (registerScope o p v h) body).1 o p = getHeapProp h o p := by
  simp [runScopeWith, registerScope, temporarilySet, beforeAll, afterAll, runHooks,
    List.foldl, getHeapProp_setHeapProp_same]

/-- C3: at any point during the scope — right after the scope-enter
callback registered by `temporarilySet(O, P, V)` has run, and after any
further dependent operations that do not themselves write `O.P` —
`O[P]` equals `V`, whatever heap the enter callback ran on. -/
theorem temporarilySet_value_during_scope (o : Nat) (p : String) (v : JSVal)
    (h : Heap) (hcur : Heap) (body : Heap → Heap)
    (hbody : ∀ s : Heap, getHeapProp (body s) o p = getHeapProp s o p) :
    getHeapProp (body (runHooks (registerScope o p v h).beforeAllHooks hcur)) o p = v := by
  rw [hbody]
  simp [registerScope, temporarilySet, beforeAll, afterAll, runHooks, List.foldl,
    getHeapProp_setHeapProp_same]

theorem temporarilySet_value_during_scope_witness :
    (∀ s : Heap, getHeapProp (id s) 0 "disabled" = getHeapProp s 0 "disabled")
    ∧ getHeapProp
        (id (runHooks (registerScope 0 "disabled" (JSVal.bool true) exampleHeap).beforeAllHooks
          exampleHeap)) 0 "disabled" = JSVal.bool true :=
  ⟨fun _ => rfl,
    temporarilySet_value_during_scope 0 "disabled" (JSVal.bool true) exampleHeap exampleHeap
      id (fun _ => rfl)⟩

/-- C4: the Original Value snapshot is taken exactly once, synchronously
at the moment `temporarilySet` is invoked: the registered exit callback
closes over `getHeapProp h o p`, the read of the heap at registration
time (first conjunct, definitional), and even if the override phase runs
any positive number of times before the exit callback, restoration still
yields the registration-time value (second conjunct). -/
theorem temporarilySet_snapshot_at_registration (o : Nat) (p : String) (v : JSVal)
    (h : Heap) :
    (registerScope o p v h).afterAllHooks
      = [fun s => setHeapProp s o p (getHeapProp h o p)]
    ∧ ∀ n : Nat,
        getHeapProp
          (runHooks (registerScope o p v h).afterAllHooks
            (Nat.iterate (fun s => setHeapProp s o p v) (n + 1) h)) o p
          = getHeapProp h o p := by
  refine ⟨rfl, fun n => ?_⟩
  simp [registerScope, temporarilySet, beforeAll, afterAll, runHooks, List.foldl,
    getHeapProp_setHeapProp_same]

/-- C2 counterexample: with object `0` initially `{ p: 0 }`, an outer
scope `temporarilySet(0, "p", 1)` and a nested inner scope
`temporarilySet(0, "p", 2)`, at the point after the inner scope's exit
callback has run and before the outer scope's exit callback runs, `O.P`
is `0` (the collection-phase value) and not `1` (= `V1`), because the
inner scope's snapshot was taken during the collection phase, before the
outer enter callback wrote `1`. -/
theorem temporarilySet_nested_mid_counterexample :
    getHeapProp
      (nestedAfterInnerExit (registerScope 0 "p" (JSVal.num 1) nestedExampleHeap)
        (registerScope 0 "p" (JSVal.num 2)
          (registerScope 0 "p" (JSVal.num 1) nestedExampleHeap).heap) id) 0 "p"
      ≠ JSVal.num 1 := by
  decide

/-- C2 (amended): for nested scopes, during the inner scope `O.P = V2`;
after the inner scope's exit callback but before the outer scope's,
`O.P` equals the pre-outer-scope value (not `V1`: both scopes snapshot
during the collection phase, before either enter callback runs, so the
inner snapshot is the collection-phase value); after the outer scope
exits, `O.P` again equals the pre-outer-scope value. -/
theorem temporarilySet_nested_phases (o : Nat) (p : String) (v1 v2 : JSVal)
    (h : Heap) (innerBody : Heap → Heap)
    (hbody : ∀ s : Heap, getHeapProp (innerBody s) o p = getHeapProp s o p) :
    getHeapProp
      (innerBody
        (runHooks (registerScope o p v2 (registerScope o p v1 h).heap).beforeAllHooks
          (runHooks (registerScope o p v1 h).beforeAllHooks h))) o p = v2
    ∧ getHeapProp
        (nestedAfterInnerExit (registerScope o p v1 h)
          (registerScope o p v2 (registerScope o p v1 h).heap) innerBody) o p
        = getHeapProp h o p
    ∧ getHeapProp
        (runNested (registerScope o p v1 h)
          (registerScope o p v2 (registerScope o p v1 h).heap) innerBody) o p
        = getHeapProp h o p := by
  refine ⟨?_, ?_, ?_⟩
  · rw [hbody]
    simp [registerScope, temporarilySet, beforeAll, afterAll, runHooks, List.foldl,
      getHeapProp_setHeapProp_same]
  · simp [nestedAfterInnerExit, registerScope, temporarilySet, beforeAll, afterAll,
      runHooks, List.foldl, getHeapProp_setHeapProp_same]
  · simp [runNested, nestedAfterInnerExit, registerScope, temporarilySet, beforeAll,
      afterAll, runHooks, List.foldl, getHeapProp_setHeapProp_same]

theorem temporarilySet_nested_phases_witness :
    (∀ s : Heap, getHeapProp (id s) 0 "p" = getHeapProp s 0 "p")
    ∧ (getHeapProp
        (id (runHooks
          (registerScope 0 "p" (JSVal.num 2)
            (registerScope 0 "p" (JSVal.num 1) nestedExampleHeap).heap).beforeAllHooks
          (runHooks (registerScope 0 "p" (JSVal.num 1) nestedExampleHeap).beforeAllHooks
            nestedExampleHeap))) 0 "p" = JSVal.num 2
      ∧ getHeapProp
          (nestedAfterInnerExit (registerScope 0 "p" (JSVal.num 1) nestedExampleHeap)
            (registerScope 0 "p" (JSVal.num 2)
              (registerScope 0 "p" (JSVal.num 1) nestedExampleHeap).heap) id) 0 "p"
          = getHeapProp nestedExampleHeap 0 "p"
      ∧ getHeapProp
          (runNested (registerScope 0 "p" (JSVal.num 1) nestedExampleHeap)
            (registerScope 0 "p" (JSVal.num 2)
              (registerScope 0 "p" (JSVal.num 1) nestedExampleHeap).heap) id) 0 "p"
          = getHeapProp nestedExampleHeap 0 "p") :=
  ⟨fun _ => rfl,
    temporarilySet_nested_phases 0 "p" (JSVal.num 1) (JSVal.num 2) nestedExampleHeap
      id (fun _ => rfl)⟩

/-- C5 counterexample: with `"disabled"` absent from object `0`, after a
full `temporarilySet(0, "disabled", true)` scope completes, the property
is NOT removed or absent: the exit callback executes the assignment
`object[propertyName] = undefined`, which in JavaScript leaves the
property present (with value `undefined`). -/
theorem temporarilySet_absent_property_counterexample :
    hasHeapProp emptyHeap 0 "disabled" = false
    ∧ hasHeapProp (runScope (registerScope 0 "disabled" (JSVal.bool true) emptyHeap) id)
        0 "disabled" = true := by
  decide

/-- C5 (amended): if `P` was absent from `O` at invocation, then after
the exit callback `O[P]` reads back `undefined` — no spurious defined
value is introduced — but `P` remains a present own property of `O`
(with value `undefined`) rather than being removed or set to absent. -/
theorem temporarilySet_absent_restores_undefined (o : Nat) (p : String) (v : JSVal)
    (h : Heap) (body : Heap → Heap) (habs : hasHeapProp h o p = false) :
    getHeapProp (runScope (registerScope o p v h) body) o p = JSVal.undef
    ∧ (getHeapProp (runScope (registerScope o p v h) body) o p).isDefined = false
    ∧ hasHeapProp (runScope (registerScope o p v h) body) o p = true := by
  have horig : getHeapProp h o p = JSVal.undef :=
    getProp_eq_undef_of_not_hasProp (h o) p habs
  have hread : getHeapProp (runScope (registerScope o p v h) body) o p
      = getHeapProp h o p := by
    simp [runScope, runScopeOn, registerScope, temporarilySet, beforeAll, afterAll,
      runHooks, List.foldl, getHeapProp_setHeapProp_same]
  refine ⟨hread.trans horig, ?_, ?_⟩
  · rw [hread, horig]
    rfl
  · simp [runScope, runScopeOn, registerScope, temporarilySet, beforeAll, afterAll,
      runHooks, List.foldl, hasHeapProp_setHeapProp_same]

theorem temporarilySet_absent_restores_undefined_witness :
    hasHeapProp emptyHeap 0 "x" = false
    ∧ (getHeapProp (runScope (registerScope 0 "x" (JSVal.num 5) emptyHeap) id) 0 "x"
          = JSVal.undef
      ∧ (getHeapProp (runScope (registerScope 0 "x" (JSVal.num 5) emptyHeap) id)
          0 "x").isDefined = false
      ∧ hasHeapProp (runScope (registerScope 0 "x" (JSVal.num 5) emptyHeap) id) 0 "x"
          = true) :=
  ⟨by decide,
    temporarilySet_absent_restores_undefined 0 "x" (JSVal.num 5) emptyHeap id (by decide)⟩

/-- C6: two sibling scopes over the same object and property each close
their exit callback over the read taken at their own registration time
(first two conjuncts: both registrations happen during the collection
phase, so both snapshots are the collection-phase value), and running
the two scopes in either declaration order leaves `O.P` restored to that
same value (last two conjuncts), whatever the scope bodies did. -/
theorem temporarilySet_sibling_independence (o : Nat) (p : String) (va vb : JSVal)
    (h : Heap) (bodyA bodyB : Heap → Heap) :
    (registerScope o p va h).afterAllHooks
      = [fun s => setHeapProp s o p (getHeapProp h o p)]
    ∧ (registerScope o p vb (registerScope o p va h).heap).afterAllHooks
        = [fun s => setHeapProp s o p (getHeapProp h o p)]
    ∧ getHeapProp
        (runScopeOn (registerScope o p vb (registerScope o p va h).heap) bodyB
          (runScopeOn (registerScope o p va h) bodyA h)) o p = getHeapProp h o p
    ∧ getHeapProp
        (runScopeOn (registerScope o p va (registerScope o p vb h).heap) bodyA
          (runScopeOn (registerScope o p vb h) bodyB h)) o p = getHeapProp h o p := by
  refine ⟨rfl, rfl, ?_, ?_⟩
  · simp [runScopeOn, registerScope, temporarilySet, beforeAll, afterAll, runHooks,
      List.foldl, getHeapProp_setHeapProp_same]
  · simp [runScopeOn, registerScope, temporarilySet, beforeAll, afterAll, runHooks,
      List.foldl, getHeapProp_setHeapProp_same]

/-- C7: the utility touches only `O.P`.  Registration itself leaves the
heap untouched (first conjunct), and each registered callback — enter
and exit — preserves the read and the presence of every other property
`P'` of `O` and of any other object `O'`, and leaves every object other
than `O` entirely unchanged; outside the callbacks the utility performs
no writes at all, so distinct invocations managing distinct properties
compose without interference. -/
theorem temporarilySet_frame_property (o : Nat) (p : String) (v : JSVal) (h : Heap)
    (o' : Nat) (p' : String) (hne : o' ≠ o ∨ p' ≠ p) (hcur : Heap) :
    (registerScope o p v h).heap = h
    ∧ (∀ f ∈ (registerScope o p v h).beforeAllHooks,
        getHeapProp (f hcur) o' p' = getHeapProp hcur o' p'
        ∧ hasHeapProp (f hcur) o' p' = hasHeapProp hcur o' p'
        ∧ ∀ n : Nat, n ≠ o → f hcur n = hcur n)
    ∧ (∀ f ∈ (registerScope o p v h).afterAllHooks,
        getHeapProp (f hcur) o' p' = getHeapProp hcur o' p'
        ∧ hasHeapProp (f hcur) o' p' = hasHeapProp hcur o' p'
        ∧ ∀ n : Nat, n ≠ o → f hcur n = hcur n) := by
  refine ⟨rfl, ?_, ?_⟩
  · intro f hf
    rw [registerScope_beforeAllHooks, List.mem_singleton] at hf
    subst hf
    exact ⟨getHeapProp_setHeapProp_other hcur o o' p p' v hne,
      hasHeapProp_setHeapProp_other hcur o o' p p' v hne,
      fun n hn => by simp [setHeapProp, hn]⟩
  · intro f hf
    rw [registerScope_afterAllHooks, List.mem_singleton] at hf
    subst hf
    exact ⟨getHeapProp_setHeapProp_other hcur o o' p p' _ hne,
      hasHeapProp_setHeapProp_other hcur o o' p p' _ hne,
      fun n hn => by simp [setHeapProp, hn]⟩

theorem temporarilySet_frame_property_witness :
    ((0 : Nat) ≠ 0 ∨ "label" ≠ "disabled")
    ∧ ((registerScope 0 "disabled" (JSVal.bool true) exampleHeap).heap = exampleHeap
      ∧ (∀ f ∈ (registerScope 0 "disabled" (JSVal.bool true) exampleHeap).beforeAllHooks,
          getHeapProp (f exampleHeap) 0 "label" = getHeapProp exampleHeap 0 "label"
          ∧ hasHeapProp (f exampleHeap) 0 "label" = hasHeapProp exampleHeap 0 "label"
          ∧ ∀ n : Nat, n ≠ 0 → f exampleHeap n = exampleHeap n)
      ∧ (∀ f ∈ (registerScope 0 "disabled" (JSVal.bool true) exampleHeap).afterAllHooks,
          getHeapProp (f exampleHeap) 0 "label" = getHeapProp exampleHeap 0 "label"
          ∧ hasHeapProp (f exampleHeap) 0 "label" = hasHeapProp exampleHeap 0 "label"
          ∧ ∀ n : Nat, n ≠ 0 → f exampleHeap n = exampleHeap n)) :=
  ⟨Or.inr (by decide),
    temporarilySet_frame_property 0 "disabled" (JSVal.bool true) exampleHeap 0 "label"
      (Or.inr (by decide)) exampleHeap⟩

/-- C8: `temporarilySet` validates nothing and returns no value.  It is
a total function of its arguments (registration is defined — and, the
body containing only a property read and two hook registrations, raises
nothing — for every target, property name and value); its return value
is `undefined`; registration leaves the heap untouched; and its entire
observable effect depends only on the read `target[propertyName]`, never
on whether the property exists: two environments whose heaps agree on
that read (one may have the property present, the other absent) receive
identical hook registrations. -/
theorem temporarilySet_no_validation (o : Nat) (p : String) (v : JSVal)
    (env1 env2 : TestEnv)
    (hread : getHeapProp env1.heap o p = getHeapProp env2.heap o p)
    (hb : env1.beforeAllHooks = env2.beforeAllHooks)
    (ha : env1.afterAllHooks = env2.afterAllHooks) :
    (temporarilySet o p v env1).2 = JSVal.undef
    ∧ (temporarilySet o p v env1).1.heap = env1.heap
    ∧ (temporarilySet o p v env1).1.beforeAllHooks
        = (temporarilySet o p v env2).1.beforeAllHooks
    ∧ (temporarilySet o p v env1).1.afterAllHooks
        = (temporarilySet o p v env2).1.afterAllHooks := by
  refine ⟨rfl, rfl, ?_, ?_⟩
  · simp [temporarilySet, beforeAll, afterAll, hb]
  · simp [temporarilySet, beforeAll, afterAll, ha, hread]

theorem temporarilySet_no_validation_witness :
    (getHeapProp (TestEnv.mk presentUndefHeap [] []).heap 0 "x"
        = getHeapProp (TestEnv.mk emptyHeap [] []).heap 0 "x"
      ∧ (TestEnv.mk presentUndefHeap [] []).beforeAllHooks
          = (TestEnv.mk emptyHeap [] []).beforeAllHooks
      ∧ (TestEnv.mk presentUndefHeap [] []).afterAllHooks
          = (TestEnv.mk emptyHeap [] []).afterAllHooks)
    ∧ ((temporarilySet 0 "x" (JSVal.num 5) (TestEnv.mk presentUndefHeap [] [])).2
          = JSVal.undef
      ∧ (temporarilySet 0 "x" (JSVal.num 5) (TestEnv.mk presentUndefHeap [] [])).1.heap
          = (TestEnv.mk presentUndefHeap [] []).heap
      ∧ (temporarilySet 0 "x" (JSVal.num 5)
            (TestEnv.mk presentUndefHeap [] [])).1.beforeAllHooks
          = (temporarilySet 0 "x" (JSVal.num 5) (TestEnv.mk emptyHeap [] [])).1.beforeAllHooks
      ∧ (temporarilySet 0 "x" (JSVal.num 5)
            (TestEnv.mk presentUndefHeap [] [])).1.afterAllHooks
          = (temporarilySet 0 "x" (JSVal.num 5) (TestEnv.mk emptyHeap [] [])).1.afterAllHooks) :=
  ⟨⟨by decide, rfl, rfl⟩,
    temporarilySet_no_validation 0 "x" (JSVal.num 5) (TestEnv.mk presentUndefHeap [] [])
      (TestEnv.mk emptyHeap [] []) (by decide) rfl rfl⟩

/-- C9: both callbacks registered by `temporarilySet` are idempotent:
running the enter callback any positive number of times from any heap
leaves `O[P] = V`, and running the exit callback any positive number of
times leaves `O[P]` equal to the registration-time snapshot; a second
run of either callback is a no-op on the whole heap. -/
theorem temporarilySet_callbacks_idempotent (o : Nat) (p : String) (v : JSVal)
    (h : Heap) (hcur : Heap) (n : Nat) (fEnter fExit : Heap → Heap)
    (hEnter : fEnter ∈ (registerScope o p v h).beforeAllHooks)
    (hExit : fExit ∈ (registerScope o p v h).afterAllHooks) :
    fEnter (fEnter hcur) = fEnter hcur
    ∧ getHeapProp (Nat.iterate fEnter (n + 1) hcur) o p = v
    ∧ fExit (fExit hcur) = fExit hcur
    ∧ getHeapProp (Nat.iterate fExit (n + 1) hcur) o p = getHeapProp h o p := by
  rw [registerScope_beforeAllHooks, List.mem_singleton] at hEnter
  rw [registerScope_afterAllHooks, List.mem_singleton] at hExit
  subst hEnter
  subst hExit
  have hidem1 : ∀ x : Heap, setHeapProp (setHeapProp x o p v) o p v = setHeapProp x o p v :=
    fun x => setHeapProp_idem x o p v
  have hidem2 : ∀ x : Heap,
      setHeapProp (setHeapProp x o p (getHeapProp h o p)) o p (getHeapProp h o p)
        = setHeapProp x o p (getHeapProp h o p) :=
    fun x => setHeapProp_idem x o p (getHeapProp h o p)
  refine ⟨hidem1 hcur, ?_, hidem2 hcur, ?_⟩
  · rw [iterate_fixed_of_idem _ hidem1 n hcur]
    exact getHeapProp_setHeapProp_same hcur o p v
  · rw [iterate_fixed_of_idem _ hidem2 n hcur]
    exact getHeapProp_setHeapProp_same hcur o p (getHeapProp h o p)

theorem temporarilySet_callbacks_idempotent_witness :
    ((fun s => setHeapProp s 0 "disabled" (JSVal.bool true))
        ∈ (registerScope 0 "disabled" (JSVal.bool true) exampleHeap).beforeAllHooks
      ∧ (fun s => setHeapProp s 0 "disabled" (getHeapProp exampleHeap 0 "disabled"))
        ∈ (registerScope 0 "disabled" (JSVal.bool true) exampleHeap).afterAllHooks)
    ∧ ((fun s => setHeapProp s 0 "disabled" (JSVal.bool true))
          ((fun s => setHeapProp s 0 "disabled" (JSVal.bool true)) exampleHeap)
        = (fun s => setHeapProp s 0 "disabled" (JSVal.bool true)) exampleHeap
      ∧ getHeapProp
          (Nat.iterate (fun s => setHeapProp s 0 "disabled" (JSVal.bool true)) 3 exampleHeap)
          0 "disabled" = JSVal.bool true
      ∧ (fun s => setHeapProp s 0 "disabled" (getHeapProp exampleHeap 0 "disabled"))
          ((fun s => setHeapProp s 0 "disabled" (getHeapProp exampleHeap 0 "disabled"))
            exampleHeap)
        = (fun s => setHeapProp s 0 "disabled" (getHeapProp exampleHeap 0 "disabled"))
            exampleHeap
      ∧ getHeapProp
          (Nat.iterate (fun s => setHeapProp s 0 "disabled"
            (getHeapProp exampleHeap 0 "disabled")) 3 exampleHeap) 0 "disabled"
          = getHeapProp exampleHeap 0 "disabled") :=
  ⟨⟨List.mem_singleton_self _, List.mem_singleton_self _⟩,
    temporarilySet_callbacks_idempotent 0 "disabled" (JSVal.bool true) exampleHeap
      exampleHeap 2 _ _ (List.mem_singleton_self _) (List.mem_singleton_self _)⟩

/-- C10: `src/testUtils.js` exposes `temporarilySet` only as a field of
its default-exported object: the module's sole export name is
`"default"`, so the named import `import { temporarilySet }`
in `Button.test.js` resolves to no export — under the toolchain's
CommonJS interop the binding is `undefined` — and the field
`temporarilySet` is reachable only through the default export. -/
theorem testUtils_named_import_unbound :
    resolveExport testUtilsModuleExports "temporarilySet" = none
    ∧ resolveExport testUtilsModuleExports "default"
        = some (ExportVal.objVal ["temporarilySet"])
    ∧ ∀ kv ∈ testUtilsModuleExports, kv.1 = "default" := by
  refine ⟨by decide, rfl, ?_⟩
  intro kv hkv
  rw [testUtilsModuleExports, List.mem_singleton] at hkv
  rw [hkv]
